import Mathlib

/-!
Verification of the admission-control (rate-limiting) engine of the
FetchClient repository: a shallow embedding of `src/RateLimiter.ts` and
`src/RateLimitMiddleware.ts`, together with proofs of the specified
properties (sliding-window admission, per-group policy resolution,
header-driven negotiation, and the wire-level header codec).

Times are modelled as integers (milliseconds since epoch, as produced by
`Date.now()`); header values as Lean `String`s; JavaScript `Map`s as
functions `String → Option _`; and JavaScript number fields that may be
`undefined` as `Option Int`.
-/

namespace FetchClient

/-- Point update of a string-keyed map, modelling `Map.prototype.set`. -/
def upd {α : Type} (m : String → Option α) (k : String) (v : α) :
    String → Option α :=
  fun x => if x = k then some v else m x

/-! ### Decimal digit strings

`natDec n` is the decimal representation of `n`, mirroring JavaScript
number-to-string conversion for non-negative integers; `digitsVal` mirrors
`parseInt` applied to a non-empty all-digit capture. -/

/-- Big-endian decimal digit characters of a positive natural number,
with an explicit fuel argument for kernel-computable recursion. -/
def natDecAux : Nat → Nat → List Char
  | 0, _ => []
  | fuel + 1, n =>
    if n = 0 then [] else natDecAux fuel (n / 10) ++ [Nat.digitChar (n % 10)]

/-- Big-endian decimal digit characters of a natural number. -/
def natDec (n : Nat) : List Char :=
  if n = 0 then ['0'] else natDecAux n n

/-- Value of a big-endian list of decimal digit characters (the value
`parseInt` returns on an all-digit string). -/
def digitsVal (l : List Char) : Nat :=
  l.foldl (fun a c => a * 10 + (c.toNat - 48)) 0

/-- Decimal string of an integer, mirroring JavaScript `toString` on an
integer-valued number. -/
def intDec (i : Int) : List Char :=
  if i < 0 then '-' :: natDec i.natAbs else natDec i.toNat

/-- String form of `intDec`. -/
def intToString (i : Int) : String := String.mk (intDec i)

/-! ### Header codec (`src/RateLimiter.ts` lines 375-494)

The parse functions model the JavaScript regular expressions used by
`parseRateLimitHeader` / `parseRateLimitPolicyHeader`:
`/^"([^"]+)"/` (a quoted policy name at the start) and `/r=(\d+)/` etc.
(first occurrence of the parameter letter followed by `=` and digits,
with a greedy digit capture). -/

/-- `hasEqDigit l` holds when `l` starts with `'='` followed by a decimal
digit, i.e. a parameter match can complete here. -/
def hasEqDigit : List Char → Bool
  | c :: d :: _ => c == '=' && d.isDigit
  | _ => false

/-- First match of the regex `p=(\d+)` in a character list: scan left to
right for `p` followed by `'='` and at least one digit, and return the
value of the greedy digit capture. -/
def findParam (p : Char) : List Char → Option Nat
  | [] => none
  | c :: rest =>
    if c = p && hasEqDigit rest then
      some (digitsVal (rest.tail.takeWhile Char.isDigit))
    else
      findParam p rest

/-- Match of the regex `^"([^"]+)"`: a non-empty run of non-quote
characters enclosed in double quotes at the start of the input. -/
def parseQuoted (s : List Char) : Option (List Char) :=
  match s with
  | '"' :: rest =>
    let body := rest.takeWhile (fun c => c != '"')
    if body.isEmpty then none
    else if (rest.drop body.length).head? = some '"' then some body
    else none
  | _ => none

/-- Input of `buildRateLimitHeader` (`Omit<RateLimitInfo, "limit" | "windowSeconds">`). -/
structure UsageInfo where
  policy : String
  remaining : Int
  resetSeconds : Int

/-- Input of `buildRateLimitPolicyHeader` (`Omit<RateLimitInfo, "remaining" | "resetSeconds">`). -/
structure PolicyInfo where
  policy : String
  limit : Int
  windowSeconds : Option Int

/-- `Partial<RateLimitInfo>` as returned by the two parse functions. -/
structure ParsedRateLimit where
  policy : Option String := none
  limit : Option Nat := none
  remaining : Option Nat := none
  resetSeconds : Option Nat := none
  windowSeconds : Option Nat := none
deriving DecidableEq, Repr

/-- `buildRateLimitHeader` (lines 393-403): emits
`"<policy>";r=<remaining>` and appends `;t=<resetSeconds>` only when
`resetSeconds > 0`. -/
def buildRateLimitHeader (info : UsageInfo) : String :=
  String.mk
    ('"' :: info.policy.data ++ '"' :: ';' :: 'r' :: '=' :: intDec info.remaining
      ++ (if 0 < info.resetSeconds then ';' :: 't' :: '=' :: intDec info.resetSeconds else []))

/-- `buildRateLimitPolicyHeader` (lines 410-420): emits
`"<policy>";q=<limit>` and appends `;w=<windowSeconds>` only when the
window is provided and positive. -/
def buildRateLimitPolicyHeader (info : PolicyInfo) : String :=
  String.mk
    ('"' :: info.policy.data ++ '"' :: ';' :: 'q' :: '=' :: intDec info.limit
      ++ (match info.windowSeconds with
          | some w => if 0 < w then ';' :: 'w' :: '=' :: intDec w else []
          | none => []))

/-- `parseRateLimitHeader` (lines 427-457): tolerant field-by-field
extraction of `policy`, `remaining` (`r=`) and `resetSeconds` (`t=`);
`null` only for an empty input string. -/
def parseRateLimitHeader (s : String) : Option ParsedRateLimit :=
  if s.isEmpty then none
  else some
    { policy := (parseQuoted s.data).map String.mk
      remaining := findParam 'r' s.data
      resetSeconds := findParam 't' s.data }

/-- `parseRateLimitPolicyHeader` (lines 464-494): tolerant field-by-field
extraction of `policy`, `limit` (`q=`) and `windowSeconds` (`w=`). -/
def parseRateLimitPolicyHeader (s : String) : Option ParsedRateLimit :=
  if s.isEmpty then none
  else some
    { policy := (parseQuoted s.data).map String.mk
      limit := findParam 'q' s.data
      windowSeconds := findParam 'w' s.data }

/-! ### The RateLimiter (`src/RateLimiter.ts` lines 4-356)

The class fields `options`, `groupOptions` and `buckets` are modelled as
an options record plus two explicit string-keyed maps threaded through
the operations.  The `onRateLimitExceeded` callbacks are side-effect-only
observers and carry no data relevant to any claim, so they are omitted
from the records. -/

/-- `GroupRateLimiterOptions` (lines 4-20): a per-group override whose
fields may each be absent (`undefined`). -/
structure GroupOpts where
  maxRequests : Option Int := none
  windowSeconds : Option Int := none
deriving DecidableEq, Repr

/-- The group-override registry (`groupOptions : Map<string, GroupRateLimiterOptions>`). -/
def Reg : Type := String → Option GroupOpts

/-- `RateLimitBucket` (lines 60-63). -/
structure Bucket where
  requests : List Int
  resetTime : Int
deriving DecidableEq, Repr

/-- The bucket registry (`buckets : Map<string, RateLimitBucket>`). -/
def BMap : Type := String → Option Bucket

/-- The required global options of a `RateLimiter` instance (lines 25-55
after the constructor fills the defaults). -/
structure RateLimiterM where
  maxRequests : Int
  windowSeconds : Int
  getGroupFunc : String → String

/-- `RateLimiter.getGroupOptions` (lines 204-213): returns the stored
override unchanged when one exists, otherwise an object carrying the
global `maxRequests` and `windowSeconds`. -/
def getGroupOptions (rl : RateLimiterM) (reg : Reg) (group : String) : GroupOpts :=
  match reg group with
  | none => { maxRequests := some rl.maxRequests, windowSeconds := some rl.windowSeconds }
  | some o => o

/-- The `maxRequests` value used by `isAllowed` line 100:
`groupOptions.maxRequests ?? 0`. -/
def effMax (rl : RateLimiterM) (reg : Reg) (key : String) : Int :=
  (getGroupOptions rl reg key).maxRequests.getD 0

/-- The window in milliseconds used by `isAllowed` lines 101 and 109:
`(groupOptions.windowSeconds ?? 0) * 1000`. -/
def effWinMs (rl : RateLimiterM) (reg : Reg) (key : String) : Int :=
  (getGroupOptions rl reg key).windowSeconds.getD 0 * 1000

/-- The cleanup pass of `isAllowed` line 116: keep the timestamps `t`
with `t > now − windowMs`. -/
def survive (now windowMs : Int) (l : List Int) : List Int :=
  l.filter (fun t => decide (now - windowMs < t))

/-- The timestamp list of the group's bucket (empty when no bucket
exists yet). -/
def bucketReqs (bks : BMap) (k : String) : List Int :=
  match bks k with
  | none => []
  | some b => b.requests

/-- The `resetTime` of the bucket `isAllowed` operates on (the fresh
bucket of lines 107-110 when none exists). -/
def bucketReset (bks : BMap) (k : String) (now windowMs : Int) : Int :=
  ((bks k).getD { requests := [], resetTime := now + windowMs }).resetTime

/-- `RateLimiter.isAllowed` (lines 94-132): resolve the group and its
options (missing fields falling back to `0` via `??`), create the bucket
if absent, drop timestamps outside the window, refresh `resetTime` when
the bucket emptied, then either deny (count already at `maxRequests`) or
append `now` and allow. -/
def isAllowed (rl : RateLimiterM) (reg : Reg) (bks : BMap) (now : Int)
    (url : String) : Bool × BMap :=
  let key := rl.getGroupFunc url
  let maxRequests : Int := effMax rl reg key
  let windowMs : Int := effWinMs rl reg key
  let reqs := survive now windowMs (bucketReqs bks key)
  let resetTime :=
    if reqs.length = 0 then now + windowMs else bucketReset bks key now windowMs
  if maxRequests ≤ (reqs.length : Int) then
    (false, upd bks key { requests := reqs, resetTime := resetTime })
  else
    (true, upd bks key { requests := reqs ++ [now], resetTime := resetTime })

/-- `RateLimiter.getRequestCount` (lines 139-152). -/
def getRequestCount (rl : RateLimiterM) (reg : Reg) (bks : BMap) (now : Int)
    (url : String) : Nat :=
  let key := rl.getGroupFunc url
  match bks key with
  | none => 0
  | some bucket => (survive now (effWinMs rl reg key) bucket.requests).length

/-- `RateLimiter.getRemainingRequests` (lines 159-168). -/
def getRemainingRequests (rl : RateLimiterM) (reg : Reg) (bks : BMap)
    (now : Int) (url : String) : Int :=
  let key := rl.getGroupFunc url
  max 0 (effMax rl reg key - (getRequestCount rl reg bks now url : Int))

/-- `RateLimiter.getResetTime` (lines 175-179). -/
def getResetTime (rl : RateLimiterM) (bks : BMap) (url : String) : Option Int :=
  (bks (rl.getGroupFunc url)).map Bucket.resetTime

/-- `RateLimiter.setGroupOptions` (lines 229-234): stores the given
object for the group, replacing any previous entry. -/
def setGroupOptions (reg : Reg) (group : String) (options : GroupOpts) : Reg :=
  upd reg group options

/-- A run of repeated `isAllowed` calls on the same URL at the given
sequence of `Date.now()` readings, collecting the returned booleans. -/
def runIsAllowed (rl : RateLimiterM) (reg : Reg) (bks : BMap)
    (times : List Int) (url : String) : List Bool × BMap :=
  match times with
  | [] => ([], bks)
  | t :: ts =>
    let r := isAllowed rl reg bks t url
    let rest := runIsAllowed rl reg r.2 ts url
    (r.1 :: rest.1, rest.2)

/-! ### Header-driven negotiation (`RateLimiter.updateFromHeaders`, lines 268-348) -/

/-- JavaScript truthiness of a nullable string (`null` and `""` are falsy). -/
def jsTruthyS : Option String → Bool
  | none => false
  | some s => !s.isEmpty

/-- JavaScript `a || b` on nullable strings. -/
def jsOrS (a b : Option String) : Option String :=
  if jsTruthyS a then a else b

/-- Leading digit run of a character list, or `none` when there is none
(the `NaN` case of `parseInt`). -/
def jsParseDigits (l : List Char) : Option Nat :=
  let d := l.takeWhile Char.isDigit
  if d.isEmpty then none else some (digitsVal d)

/-- `parseInt(s, 10)`: skip leading whitespace, read an optional sign and
a leading run of decimal digits, ignoring any trailing characters;
`none` models `NaN`. -/
def jsParseInt (s : String) : Option Int :=
  let l := s.data.dropWhile Char.isWhitespace
  if l.head? = some '-' then (jsParseDigits l.tail).map (fun n => -(n : Int))
  else if l.head? = some '+' then (jsParseDigits l.tail).map (fun n => (n : Int))
  else (jsParseDigits l).map (fun n => (n : Int))

/-- Decimal string of a natural number (`Number.prototype.toString`). -/
def natToString (n : Nat) : String := String.mk (natDec n)

/-- The rate-limit-relevant response headers, as read by
`updateFromHeaders` through `headers.get` (absent headers are `none`). -/
structure HeadersRL where
  ratelimitPolicy : Option String := none
  ratelimit : Option String := none
  xRatelimitLimit : Option String := none
  xRateLimitLimit : Option String := none
  xRatelimitWindow : Option String := none
  xRateLimitWindow : Option String := none
  xRatelimitReset : Option String := none
  xRateLimitReset : Option String := none

/-- The `limit` string taken from the standards-track `ratelimit-policy`
header (`updateFromHeaders` lines 281-290): the stringified parsed `q`
value when the header is truthy and that value is a truthy (non-zero)
number, else null. -/
def stdLimit (h : HeadersRL) : Option String :=
  match h.ratelimitPolicy with
  | some s =>
    if s.isEmpty then none
    else
      match parseRateLimitPolicyHeader s with
      | some p =>
        match p.limit with
        | some l => if l ≠ 0 then some (natToString l) else none
        | none => none
      | none => none
  | none => none

/-- The `window` string taken from the standards-track `ratelimit-policy`
header (`updateFromHeaders` lines 281-290): the stringified parsed `w`
value when truthy, else null. -/
def stdWindow (h : HeadersRL) : Option String :=
  match h.ratelimitPolicy with
  | some s =>
    if s.isEmpty then none
    else
      match parseRateLimitPolicyHeader s with
      | some p =>
        match p.windowSeconds with
        | some w => if w ≠ 0 then some (natToString w) else none
        | none => none
      | none => none
  | none => none

/-- The `reset` string taken from the standards-track `ratelimit` header
(`updateFromHeaders` lines 292-298): the stringified parsed `t` value
when truthy, else null. -/
def stdReset (h : HeadersRL) : Option String :=
  match h.ratelimit with
  | some s =>
    if s.isEmpty then none
    else
      match parseRateLimitHeader s with
      | some p =>
        match p.resetSeconds with
        | some r => if r ≠ 0 then some (natToString r) else none
        | none => none
      | none => none
  | none => none

/-- The `limit` string negotiated by `updateFromHeaders` lines 281-304:
the standards-track quota when truthy, otherwise the legacy
`x-ratelimit-limit` / `x-rate-limit-limit` chain. -/
def negLimit (h : HeadersRL) : Option String :=
  jsOrS (stdLimit h) (jsOrS h.xRatelimitLimit h.xRateLimitLimit)

/-- The `window` string negotiated by `updateFromHeaders` lines 281-309. -/
def negWindow (h : HeadersRL) : Option String :=
  jsOrS (stdWindow h) (jsOrS h.xRatelimitWindow h.xRateLimitWindow)

/-- The `reset` string negotiated by `updateFromHeaders` lines 292-314. -/
def negReset (h : HeadersRL) : Option String :=
  jsOrS (stdReset h) (jsOrS h.xRatelimitReset h.xRateLimitReset)

/-- `RateLimiter.updateFromHeaders` (lines 268-348): starting from the
existing override for the group (or an empty object), overwrite
`maxRequests` when a limit string is truthy and parses, overwrite
`windowSeconds` when a window string is truthy and parses, else derive it
as `max(1, reset − floor(now/1000))` from a reset string; store the
merged object only when at least one field was applied.
The `currentOptions` object (lines 270-272) is the stored override when
one exists, else an empty object (never the global fallback). -/
def curOverride (reg : Reg) (group : String) : GroupOpts :=
  match reg group with
  | some o => o
  | none => {}

def updateFromHeaders (reg : Reg) (group : String) (h : HeadersRL)
    (now : Int) : Reg :=
  let current : GroupOpts := curOverride reg group
  let limit := negLimit h
  let window := negWindow h
  let reset := negReset h
  let s1 : GroupOpts × Bool :=
    if jsTruthyS limit then
      match jsParseInt (limit.getD "") with
      | some m => ({ current with maxRequests := some m }, true)
      | none => (current, false)
    else (current, false)
  let s2 : GroupOpts × Bool :=
    if jsTruthyS window then
      match jsParseInt (window.getD "") with
      | some w => ({ s1.1 with windowSeconds := some w }, true)
      | none => s1
    else if jsTruthyS reset then
      match jsParseInt (reset.getD "") with
      | some r => ({ s1.1 with windowSeconds := some (max 1 (r - now.fdiv 1000)) }, true)
      | none => s1
    else s1
  if s2.2 then setGroupOptions reg group s2.1 else reg

/-- `groupByDomain` (lines 363-370), parameterized by the host runtime's
URL parser: the hostname when `new URL(url)` succeeds, the input string
itself when it throws. -/
def groupByDomain (parseHostname : String → Option String) (url : String) : String :=
  match parseHostname url with
  | some h => h
  | none => url

/-! ### The middleware (`src/RateLimitMiddleware.ts` lines 15-177) -/

/-- Ceiling integer division for a positive divisor, modelling
`Math.ceil(a / b)` on integer operands. -/
def jsCeilDiv (a b : Int) : Int := (a + b - 1).fdiv b

/-- The middleware configuration fields beyond the rate limiter options
(lines 35-53), before constructor defaulting. -/
structure MwConfig where
  throwOnRateLimit : Option Bool := none
  errorMessage : Option String := none

/-- The default `RateLimitError` / problem-detail message (lines 20-25
and 134-137), parameterized by the runtime's `Date.toISOString`. -/
def defaultDenyMessage (isoDate : Int → String) (resetTime : Int) : String :=
  "Rate limit exceeded. Try again after " ++ isoDate resetTime

/-- The observable fields of the synthesized 429 response
(lines 101-162). -/
structure SynthResp where
  status : Int
  statusText : String
  contentType : String
  rateLimit : String
  rateLimitPolicy : String
  rateLimitLimit : String
  rateLimitRemaining : String
  rateLimitReset : String
  retryAfter : String
  ok : Bool
  bodyNull : Bool
  problemStatus : Int
  problemTitle : String
  problemDetail : String
deriving DecidableEq, Repr

/-- Outcome of one middleware invocation: `threw` models raising a
`RateLimitError (resetTime, remainingRequests, message)`; `synthesized`
models returning with `context.response` set to a 429 response;
`delegatedNext` is the only outcome in which `await next()` runs. -/
inductive MwOutcome where
  | threw (resetTime remaining : Int) (message : String)
  | synthesized (resp : SynthResp)
  | delegatedNext
deriving DecidableEq, Repr

/-- `RateLimitMiddleware.middleware` (lines 83-165), up to the deny
decision: evaluate `isAllowed`; on denial either throw a
`RateLimitError` (throw mode, the constructor default) or synthesize the
429 response; on allowance delegate downstream. -/
def middleware (cfg : MwConfig) (rl : RateLimiterM) (reg : Reg) (bks : BMap)
    (now : Int) (url : String) (isoDate : Int → String) : MwOutcome × BMap :=
  let r := isAllowed rl reg bks now url
  if r.1 then (.delegatedNext, r.2)
  else
    let group := rl.getGroupFunc url
    let resetTime := (getResetTime rl r.2 url).getD now
    let remaining := getRemainingRequests rl reg r.2 now url
    if cfg.throwOnRateLimit.getD true then
      (.threw resetTime remaining
        (cfg.errorMessage.getD (defaultDenyMessage isoDate resetTime)), r.2)
    else
      let g := getGroupOptions rl reg group
      let maxRequests : Int := g.maxRequests.getD 0
      let windowSeconds : Int := g.windowSeconds.getD 0
      let resetSeconds := jsCeilDiv (resetTime - now) 1000
      (.synthesized
        { status := 429
          statusText := "Too Many Requests"
          contentType := "application/problem+json"
          rateLimit := buildRateLimitHeader
            { policy := group, remaining := remaining, resetSeconds := resetSeconds }
          rateLimitPolicy := buildRateLimitPolicyHeader
            { policy := group, limit := maxRequests, windowSeconds := some windowSeconds }
          rateLimitLimit := intToString maxRequests
          rateLimitRemaining := intToString remaining
          rateLimitReset := intToString (jsCeilDiv resetTime 1000)
          retryAfter := intToString resetSeconds
          ok := false
          bodyNull := true
          problemStatus := 429
          problemTitle := "Too Many Requests"
          problemDetail := cfg.errorMessage.getD (defaultDenyMessage isoDate resetTime) },
        r.2)

/-- Modelled from the spec: `resolveEffectivePolicy(group) → Policy`
"starts from the global default Policy, overlays any GroupPolicyOverride
fields present for that group (field-level merge, not whole-object
replace)".  Returns the effective `(maxRequests, windowSeconds)` pair.
Used only to exhibit the divergence of claim C2 from the code. -/
def resolveEffectivePolicySpec (rl : RateLimiterM) (reg : Reg)
    (group : String) : Int × Int :=
  match reg group with
  | none => (rl.maxRequests, rl.windowSeconds)
  | some o => (o.maxRequests.getD rl.maxRequests, o.windowSeconds.getD rl.windowSeconds)

/-! ### Lemmas: decimal digit strings -/

theorem natDecAux_eq_digits (fuel n : Nat) (h : n ≤ fuel) :
    natDecAux fuel n = ((Nat.digits 10 n).map Nat.digitChar).reverse := by
  induction fuel generalizing n with
  | zero =>
    interval_cases n
    simp [natDecAux]
  | succ f ih =>
    by_cases hn : n = 0
    · simp [natDecAux, hn]
    · have hpos : 0 < n := Nat.pos_of_ne_zero hn
      have hdiv : n / 10 ≤ f := by
        have := Nat.div_lt_self hpos (by norm_num : 1 < 10)
        omega
      rw [natDecAux, if_neg hn, ih _ hdiv,
        Nat.digits_def' (by norm_num : 1 < 10) hpos]
      simp

theorem natDec_eq (n : Nat) :
    natDec n = if n = 0 then ['0'] else ((Nat.digits 10 n).map Nat.digitChar).reverse := by
  unfold natDec
  split
  · rfl
  · rw [natDecAux_eq_digits n n le_rfl]

theorem digitChar_isDigit {d : Nat} (h : d < 10) : (Nat.digitChar d).isDigit = true := by
  interval_cases d <;> decide

theorem digitChar_val {d : Nat} (h : d < 10) : (Nat.digitChar d).toNat - 48 = d := by
  interval_cases d <;> decide

theorem natDec_ne_nil (n : Nat) : natDec n ≠ [] := by
  rw [natDec_eq]
  split
  · simp
  · simp [Nat.digits_ne_nil_iff_ne_zero, *]

theorem natDec_all_digits (n : Nat) : ∀ c ∈ natDec n, c.isDigit = true := by
  intro c hc
  rw [natDec_eq] at hc
  split at hc
  · simp at hc; simp [hc]
  · simp only [List.mem_reverse, List.mem_map] at hc
    obtain ⟨d, hd, rfl⟩ := hc
    exact digitChar_isDigit (Nat.digits_lt_base (by norm_num) hd)

theorem foldl_digitChars (ds : List Nat) (h : ∀ d ∈ ds, d < 10) (a : Nat) :
    ((ds.map Nat.digitChar).reverse).foldl (fun x c => x * 10 + (c.toNat - 48)) a
      = a * 10 ^ ds.length + Nat.ofDigits 10 ds := by
  induction ds generalizing a with
  | nil => simp
  | cons d ds ih =>
    have hd : d < 10 := h d (List.mem_cons_self d ds)
    have hds : ∀ x ∈ ds, x < 10 := fun x hx => h x (List.mem_cons_of_mem d hx)
    simp only [List.map_cons, List.reverse_cons,
      List.foldl_append, List.foldl_cons, List.foldl_nil]
    rw [ih hds a, digitChar_val hd, Nat.ofDigits_cons, List.length_cons]
    ring

theorem digitsVal_natDec (n : Nat) : digitsVal (natDec n) = n := by
  rw [natDec_eq]
  unfold digitsVal
  split
  · simp_all
  · rw [foldl_digitChars _ (fun d hd => Nat.digits_lt_base (by norm_num) hd) 0]
    simp [Nat.ofDigits_digits]

/-! ### Lemmas: takeWhile and scanning -/

theorem takeWhile_append_all {p : Char → Bool} {l₁ : List Char}
    (h : ∀ c ∈ l₁, p c = true) (l₂ : List Char) :
    (l₁ ++ l₂).takeWhile p = l₁ ++ l₂.takeWhile p := by
  induction l₁ with
  | nil => simp
  | cons c cs ih =>
    have hc : p c = true := h c (List.mem_cons_self c cs)
    simp only [List.cons_append, List.takeWhile_cons, hc, if_true]
    rw [ih (fun x hx => h x (List.mem_cons_of_mem c hx))]

theorem takeWhile_head_neg {p : Char → Bool} {l : List Char}
    (h : ∀ d, l.head? = some d → p d = false) :
    l.takeWhile p = [] := by
  cases l with
  | nil => rfl
  | cons c cs => simp [List.takeWhile_cons, h c rfl]

/-- Digit capture of a digit run followed by a non-digit (or nothing). -/
theorem takeWhile_digits {D rest : List Char} (hD : ∀ c ∈ D, c.isDigit = true)
    (hrest : ∀ d, rest.head? = some d → d.isDigit = false) :
    (D ++ rest).takeWhile Char.isDigit = D := by
  rw [takeWhile_append_all hD, takeWhile_head_neg hrest, List.append_nil]

theorem hasEqDigit_cons_cons (c d : Char) (l : List Char) :
    hasEqDigit (c :: d :: l) = (c == '=' && d.isDigit) := rfl

theorem hasEqDigit_false_of_head_ne {l : List Char}
    (h : ∀ d, l.head? = some d → d ≠ '=') : hasEqDigit l = false := by
  cases l with
  | nil => rfl
  | cons c rest =>
    cases rest with
    | nil => rfl
    | cons d ds =>
      rw [hasEqDigit_cons_cons]
      have hc : c ≠ '=' := h c rfl
      simp [hc]

theorem hasEqDigit_false_of_second {c : Char} {l : List Char}
    (h : ∀ d, l.head? = some d → d.isDigit = false) : hasEqDigit (c :: l) = false := by
  cases l with
  | nil => rfl
  | cons d ds =>
    rw [hasEqDigit_cons_cons, h d rfl, Bool.and_false]

theorem findParam_cons_false {p c : Char} {l : List Char}
    (h : (decide (c = p) && hasEqDigit l) = false) :
    findParam p (c :: l) = findParam p l := by
  simp only [findParam, h, Bool.false_eq_true, if_false]

theorem findParam_cons_ne {p c : Char} {l : List Char} (h : c ≠ p) :
    findParam p (c :: l) = findParam p l :=
  findParam_cons_false (by simp [h])

/-- Scanning skips a digit-free block as long as the continuation does not
start with `'='` or a digit (so no match can straddle the boundary). -/
theorem findParam_skip {p : Char} {L rest : List Char}
    (hL : ∀ c ∈ L, c.isDigit = false)
    (hrest : ∀ d, rest.head? = some d → d.isDigit = false ∧ d ≠ '=') :
    findParam p (L ++ rest) = findParam p rest := by
  induction L with
  | nil => rfl
  | cons c cs ih =>
    have hcs : ∀ x ∈ cs, x.isDigit = false := fun x hx => hL x (List.mem_cons_of_mem c hx)
    have hno : hasEqDigit (cs ++ rest) = false := by
      cases cs with
      | nil =>
        rw [List.nil_append]
        exact hasEqDigit_false_of_head_ne (fun d hd => (hrest d hd).2)
      | cons e es =>
        rw [List.cons_append]
        apply hasEqDigit_false_of_second
        intro d hd
        cases es with
        | nil =>
          rw [List.nil_append] at hd
          exact (hrest d hd).1
        | cons f fs =>
          rw [List.cons_append] at hd
          have : d = f := by
            simpa using hd.symm
          rw [this]
          exact hcs f (List.mem_cons_of_mem e (List.mem_cons_self f fs))
    rw [List.cons_append, findParam_cons_false (by rw [hno, Bool.and_false])]
    exact ih hcs

/-- Scanning skips an all-digit block when the target is not a digit. -/
theorem findParam_skip_digits {p : Char} {L rest : List Char}
    (hL : ∀ c ∈ L, c.isDigit = true) (hp : p.isDigit = false) :
    findParam p (L ++ rest) = findParam p rest := by
  induction L with
  | nil => rfl
  | cons c cs ih =>
    have hc : c ≠ p := by
      intro hcp
      have := hL c (List.mem_cons_self c cs)
      rw [hcp, hp] at this
      exact absurd this (by simp)
    rw [List.cons_append, findParam_cons_ne hc]
    exact ih (fun x hx => hL x (List.mem_cons_of_mem c hx))

/-- At a real parameter occurrence, scanning returns the digit run. -/
theorem findParam_match {p : Char} {D rest : List Char}
    (hD : ∀ c ∈ D, c.isDigit = true) (hne : D ≠ [])
    (hrest : ∀ d, rest.head? = some d → d.isDigit = false) :
    findParam p (p :: ('=' :: (D ++ rest))) = some (digitsVal D) := by
  have hhead : hasEqDigit ('=' :: (D ++ rest)) = true := by
    cases D with
    | nil => exact absurd rfl hne
    | cons d ds =>
      rw [List.cons_append, hasEqDigit_cons_cons, hD d (List.mem_cons_self d ds)]
      rfl
  simp only [findParam, hhead, Bool.and_true, decide_True, if_true, List.tail_cons]
  rw [takeWhile_digits hD hrest]

/-! ### Lemmas: header codec round trip -/

theorem mk_cons_isEmpty (c : Char) (l : List Char) :
    (String.mk (c :: l)).isEmpty = false := by
  rw [Bool.eq_false_iff]
  intro h
  have h2 : (String.mk (c :: l)).data = ("" : String).data := by
    rw [(String.isEmpty_iff _).mp h]
  simp at h2

theorem intDec_natCast (n : Nat) : intDec (n : Int) = natDec n := by
  unfold intDec
  rw [if_neg (by omega), Int.toNat_natCast]

theorem isEmpty_false_of_data {s : String} {c : Char} {cs : List Char}
    (h : s.data = c :: cs) : s.isEmpty = false := by
  cases s with
  | mk d =>
    simp only at h
    rw [h]
    exact mk_cons_isEmpty c cs

theorem parseQuoted_build {P rest : List Char} (hne : P ≠ [])
    (hq : ∀ c ∈ P, (c == '"') = false) :
    parseQuoted ('"' :: (P ++ '"' :: rest)) = some P := by
  have hbody : (P ++ '"' :: rest).takeWhile (fun c => c != '"') = P := by
    rw [takeWhile_append_all (fun c hc => by simp [bne, hq c hc]),
      takeWhile_head_neg (fun d hd => by simp at hd; rw [← hd]; decide)]
    simp
  simp only [parseQuoted, hbody]
  rw [if_neg (by simp [hne]), if_pos]
  rw [List.drop_left]
  rfl

/-- Round trip of the usage header for a policy name without digits or
quotes: the parse recovers `policy`, `remaining` and `resetSeconds`. -/
theorem parse_build_usage (P : List Char) (r t : Nat) (hne : P ≠ [])
    (hP : ∀ c ∈ P, c.isDigit = false ∧ c ≠ '"') (ht : 0 < t) :
    parseRateLimitHeader
        (buildRateLimitHeader { policy := String.mk P, remaining := (r : Int), resetSeconds := (t : Int) })
      = some { policy := some (String.mk P), remaining := some r, resetSeconds := some t } := by
  have hdata :
      (buildRateLimitHeader { policy := String.mk P, remaining := (r : Int), resetSeconds := (t : Int) }).data
        = '"' :: (P ++ '"' :: ';' :: 'r' :: '=' :: (natDec r ++ ';' :: 't' :: '=' :: natDec t)) := by
    simp [buildRateLimitHeader, intDec_natCast,
      show (0 : Int) < (t : Int) from by exact_mod_cast ht]
  have hP1 : ∀ c ∈ P, c.isDigit = false := fun c hc => (hP c hc).1
  have hP2 : ∀ c ∈ P, (c == '"') = false := fun c hc => by simp [(hP c hc).2]
  have hsplit :
      '"' :: (P ++ '"' :: ';' :: 'r' :: '=' :: (natDec r ++ ';' :: 't' :: '=' :: natDec t))
        = ('"' :: (P ++ ['"', ';'])) ++ ('r' :: ('=' :: (natDec r ++ (';' :: 't' :: '=' :: natDec t)))) := by
    simp
  have hskipL : ∀ c ∈ ('"' :: (P ++ ['"', ';'])), c.isDigit = false := by
    intro c hc
    simp only [List.mem_cons, List.mem_append] at hc
    rcases hc with rfl | hc | hc
    · rfl
    · exact hP1 c hc
    · simp only [List.mem_cons, List.not_mem_nil, or_false] at hc
      rcases hc with rfl | rfl <;> rfl
  have hr : findParam 'r'
      ('"' :: (P ++ '"' :: ';' :: 'r' :: '=' :: (natDec r ++ ';' :: 't' :: '=' :: natDec t)))
      = some r := by
    rw [hsplit, findParam_skip hskipL
      (by intro d hd; simp at hd; rw [← hd]; exact ⟨rfl, by decide⟩)]
    rw [findParam_match (natDec_all_digits r) (natDec_ne_nil r)
      (by intro d hd; simp at hd; rw [← hd]; rfl)]
    rw [digitsVal_natDec]
  have htm : findParam 't'
      ('"' :: (P ++ '"' :: ';' :: 'r' :: '=' :: (natDec r ++ ';' :: 't' :: '=' :: natDec t)))
      = some t := by
    rw [hsplit, findParam_skip hskipL
      (by intro d hd; simp at hd; rw [← hd]; exact ⟨rfl, by decide⟩)]
    rw [findParam_cons_ne (by decide), findParam_cons_ne (by decide),
      findParam_skip_digits (natDec_all_digits r) (by decide),
      findParam_cons_ne (by decide)]
    have : ('t' : Char) :: '=' :: natDec t = 't' :: ('=' :: (natDec t ++ [])) := by simp
    rw [this, findParam_match (natDec_all_digits t) (natDec_ne_nil t)
      (by intro d hd; simp at hd), digitsVal_natDec]
  have hquoted : parseQuoted
      ('"' :: (P ++ '"' :: ';' :: 'r' :: '=' :: (natDec r ++ ';' :: 't' :: '=' :: natDec t)))
      = some P := parseQuoted_build hne hP2
  have hemp := isEmpty_false_of_data hdata
  simp only [parseRateLimitHeader, hemp, Bool.false_eq_true, if_false]
  rw [hdata, hquoted, hr, htm]
  simp

/-- Round trip of the policy header for a policy name without digits or
quotes: the parse recovers `policy`, `limit` and `windowSeconds`. -/
theorem parse_build_policy (P : List Char) (q w : Nat) (hne : P ≠ [])
    (hP : ∀ c ∈ P, c.isDigit = false ∧ c ≠ '"') (hw : 0 < w) :
    parseRateLimitPolicyHeader
        (buildRateLimitPolicyHeader { policy := String.mk P, limit := (q : Int), windowSeconds := some (w : Int) })
      = some { policy := some (String.mk P), limit := some q, windowSeconds := some w } := by
  have hdata :
      (buildRateLimitPolicyHeader { policy := String.mk P, limit := (q : Int), windowSeconds := some (w : Int) }).data
        = '"' :: (P ++ '"' :: ';' :: 'q' :: '=' :: (natDec q ++ ';' :: 'w' :: '=' :: natDec w)) := by
    simp [buildRateLimitPolicyHeader, intDec_natCast,
      show (0 : Int) < (w : Int) from by exact_mod_cast hw]
  have hP1 : ∀ c ∈ P, c.isDigit = false := fun c hc => (hP c hc).1
  have hP2 : ∀ c ∈ P, (c == '"') = false := fun c hc => by simp [(hP c hc).2]
  have hsplit :
      '"' :: (P ++ '"' :: ';' :: 'q' :: '=' :: (natDec q ++ ';' :: 'w' :: '=' :: natDec w))
        = ('"' :: (P ++ ['"', ';'])) ++ ('q' :: ('=' :: (natDec q ++ (';' :: 'w' :: '=' :: natDec w)))) := by
    simp
  have hskipL : ∀ c ∈ ('"' :: (P ++ ['"', ';'])), c.isDigit = false := by
    intro c hc
    simp only [List.mem_cons, List.mem_append] at hc
    rcases hc with rfl | hc | hc
    · rfl
    · exact hP1 c hc
    · simp only [List.mem_cons, List.not_mem_nil, or_false] at hc
      rcases hc with rfl | rfl <;> rfl
  have hq : findParam 'q'
      ('"' :: (P ++ '"' :: ';' :: 'q' :: '=' :: (natDec q ++ ';' :: 'w' :: '=' :: natDec w)))
      = some q := by
    rw [hsplit, findParam_skip hskipL
      (by intro d hd; simp at hd; rw [← hd]; exact ⟨rfl, by decide⟩)]
    rw [findParam_match (natDec_all_digits q) (natDec_ne_nil q)
      (by intro d hd; simp at hd; rw [← hd]; rfl)]
    rw [digitsVal_natDec]
  have hwm : findParam 'w'
      ('"' :: (P ++ '"' :: ';' :: 'q' :: '=' :: (natDec q ++ ';' :: 'w' :: '=' :: natDec w)))
      = some w := by
    rw [hsplit, findParam_skip hskipL
      (by intro d hd; simp at hd; rw [← hd]; exact ⟨rfl, by decide⟩)]
    rw [findParam_cons_ne (by decide), findParam_cons_ne (by decide),
      findParam_skip_digits (natDec_all_digits q) (by decide),
      findParam_cons_ne (by decide)]
    have : ('w' : Char) :: '=' :: natDec w = 'w' :: ('=' :: (natDec w ++ [])) := by simp
    rw [this, findParam_match (natDec_all_digits w) (natDec_ne_nil w)
      (by intro d hd; simp at hd), digitsVal_natDec]
  have hquoted : parseQuoted
      ('"' :: (P ++ '"' :: ';' :: 'q' :: '=' :: (natDec q ++ ';' :: 'w' :: '=' :: natDec w)))
      = some P := parseQuoted_build hne hP2
  have hemp := isEmpty_false_of_data hdata
  simp only [parseRateLimitPolicyHeader, hemp, Bool.false_eq_true, if_false]
  rw [hdata, hquoted, hq, hwm]
  simp

/-! ### Lemmas: the sliding-window store -/

theorem upd_self {α : Type} (m : String → Option α) (k : String) (v : α) :
    upd m k v k = some v := by
  simp [upd]

theorem survive_idem (now wm : Int) (l : List Int) :
    survive now wm (survive now wm l) = survive now wm l :=
  List.filter_eq_self.mpr fun _ ha => (List.mem_filter.mp ha).2

theorem survive_all {now wm : Int} {l : List Int} (h : ∀ x ∈ l, now - wm < x) :
    survive now wm l = l :=
  List.filter_eq_self.mpr fun x hx => by simpa using h x hx

theorem survive_length_le (now wm : Int) (l : List Int) :
    (survive now wm l).length ≤ l.length :=
  List.length_filter_le _ l

theorem bucketReqs_upd (bks : BMap) (k : String) (b : Bucket) :
    bucketReqs (upd bks k b) k = b.requests := by
  simp [bucketReqs, upd_self]

/-- The admission decision of `isAllowed`: denied exactly when the
post-cleanup count has reached the effective `maxRequests`. -/
theorem isAllowed_fst_false_iff (rl : RateLimiterM) (reg : Reg) (bks : BMap)
    (now : Int) (url : String) :
    (isAllowed rl reg bks now url).1 = false
      ↔ effMax rl reg (rl.getGroupFunc url)
          ≤ ((survive now (effWinMs rl reg (rl.getGroupFunc url))
              (bucketReqs bks (rl.getGroupFunc url))).length : Int) := by
  simp only [isAllowed]
  split
  · simp [*]
  · simp [*]

/-- The state after a denied call: the bucket holds exactly the
post-cleanup timestamps. -/
theorem isAllowed_snd_denied (rl : RateLimiterM) (reg : Reg) (bks : BMap)
    (now : Int) (url : String)
    (h : (isAllowed rl reg bks now url).1 = false) :
    (isAllowed rl reg bks now url).2
      = upd bks (rl.getGroupFunc url)
          { requests := survive now (effWinMs rl reg (rl.getGroupFunc url))
              (bucketReqs bks (rl.getGroupFunc url)),
            resetTime :=
              if (survive now (effWinMs rl reg (rl.getGroupFunc url))
                  (bucketReqs bks (rl.getGroupFunc url))).length = 0
              then now + effWinMs rl reg (rl.getGroupFunc url)
              else bucketReset bks (rl.getGroupFunc url) now
                (effWinMs rl reg (rl.getGroupFunc url)) } := by
  have hc := (isAllowed_fst_false_iff rl reg bks now url).mp h
  simp only [isAllowed]
  rw [if_pos hc]

/-- The state after an allowed call: the post-cleanup timestamps plus the
current time. -/
theorem isAllowed_snd_allowed (rl : RateLimiterM) (reg : Reg) (bks : BMap)
    (now : Int) (url : String)
    (h : (isAllowed rl reg bks now url).1 = true) :
    (isAllowed rl reg bks now url).2
      = upd bks (rl.getGroupFunc url)
          { requests := survive now (effWinMs rl reg (rl.getGroupFunc url))
              (bucketReqs bks (rl.getGroupFunc url)) ++ [now],
            resetTime :=
              if (survive now (effWinMs rl reg (rl.getGroupFunc url))
                  (bucketReqs bks (rl.getGroupFunc url))).length = 0
              then now + effWinMs rl reg (rl.getGroupFunc url)
              else bucketReset bks (rl.getGroupFunc url) now
                (effWinMs rl reg (rl.getGroupFunc url)) } := by
  have hc : ¬ (effMax rl reg (rl.getGroupFunc url)
      ≤ ((survive now (effWinMs rl reg (rl.getGroupFunc url))
          (bucketReqs bks (rl.getGroupFunc url))).length : Int)) := by
    intro hle
    have hf := (isAllowed_fst_false_iff rl reg bks now url).mpr hle
    rw [h] at hf
    exact Bool.noConfusion hf
  simp only [isAllowed]
  rw [if_neg hc]

/-- After a denied `isAllowed` call, `getRemainingRequests` at the same
instant is `0`: the surviving count already reached `maxRequests` and the
query's cleanup pass is idempotent. -/
theorem getRequestCount_eq (rl : RateLimiterM) (reg : Reg) (bks : BMap)
    (now : Int) (url : String) :
    getRequestCount rl reg bks now url
      = (survive now (effWinMs rl reg (rl.getGroupFunc url))
          (bucketReqs bks (rl.getGroupFunc url))).length := by
  simp only [getRequestCount, bucketReqs]
  cases bks (rl.getGroupFunc url) <;> simp [survive]

theorem denied_remaining_zero (rl : RateLimiterM) (reg : Reg) (bks : BMap)
    (now : Int) (url : String)
    (h : (isAllowed rl reg bks now url).1 = false) :
    getRemainingRequests rl reg (isAllowed rl reg bks now url).2 now url = 0 := by
  have hM := (isAllowed_fst_false_iff rl reg bks now url).mp h
  rw [isAllowed_snd_denied rl reg bks now url h]
  simp only [getRemainingRequests, getRequestCount_eq, bucketReqs_upd]
  simp only [survive_idem]
  omega

/-- After any `isAllowed` call the group's bucket exists. -/
theorem isAllowed_bucket_exists (rl : RateLimiterM) (reg : Reg) (bks : BMap)
    (now : Int) (url : String) :
    ∃ b, (isAllowed rl reg bks now url).2 (rl.getGroupFunc url) = some b := by
  simp only [isAllowed]
  split
  · exact ⟨_, upd_self _ _ _⟩
  · exact ⟨_, upd_self _ _ _⟩

/-- `runIsAllowed` over a concatenation runs the two halves in sequence. -/
theorem runIsAllowed_append (rl : RateLimiterM) (reg : Reg) (bks : BMap)
    (ts1 ts2 : List Int) (url : String) :
    runIsAllowed rl reg bks (ts1 ++ ts2) url
      = ((runIsAllowed rl reg bks ts1 url).1
            ++ (runIsAllowed rl reg (runIsAllowed rl reg bks ts1 url).2 ts2 url).1,
         (runIsAllowed rl reg (runIsAllowed rl reg bks ts1 url).2 ts2 url).2) := by
  induction ts1 generalizing bks with
  | nil => simp [runIsAllowed]
  | cons t ts ih =>
    simp only [List.cons_append, runIsAllowed, List.append_eq]
    rw [ih]

/-- While the window can still see every recorded timestamp and capacity
remains, every call of a run is allowed and the timestamps accumulate in
order. -/
theorem run_allows (rl : RateLimiterM) (reg : Reg) (url : String) (t0 : Int)
    (ts : List Int) :
    ∀ bks : BMap,
      (∀ x ∈ bucketReqs bks (rl.getGroupFunc url),
          t0 ≤ x ∧ x < t0 + effWinMs rl reg (rl.getGroupFunc url)) →
      (∀ x ∈ ts, t0 ≤ x ∧ x < t0 + effWinMs rl reg (rl.getGroupFunc url)) →
      (((bucketReqs bks (rl.getGroupFunc url)).length + ts.length : Int)
          ≤ effMax rl reg (rl.getGroupFunc url)) →
      (runIsAllowed rl reg bks ts url).1 = List.replicate ts.length true
      ∧ bucketReqs (runIsAllowed rl reg bks ts url).2 (rl.getGroupFunc url)
          = bucketReqs bks (rl.getGroupFunc url) ++ ts := by
  induction ts with
  | nil =>
    intro bks _ _ _
    exact ⟨rfl, by simp [runIsAllowed]⟩
  | cons t tl ih =>
    intro bks hbk hts hcap
    have ht := hts t (List.mem_cons_self t tl)
    have hkeep : survive t (effWinMs rl reg (rl.getGroupFunc url))
        (bucketReqs bks (rl.getGroupFunc url)) = bucketReqs bks (rl.getGroupFunc url) :=
      survive_all (fun x hx => by
        have := hbk x hx
        omega)
    have hallow : (isAllowed rl reg bks t url).1 = true := by
      cases hb : (isAllowed rl reg bks t url).1 with
      | true => rfl
      | false =>
        exfalso
        have hle := (isAllowed_fst_false_iff rl reg bks t url).mp hb
        rw [hkeep] at hle
        simp only [List.length_cons] at hcap
        push_cast at hcap
        omega
    have hsnd := isAllowed_snd_allowed rl reg bks t url hallow
    have hreqs' : bucketReqs (isAllowed rl reg bks t url).2 (rl.getGroupFunc url)
        = bucketReqs bks (rl.getGroupFunc url) ++ [t] := by
      rw [hsnd, bucketReqs_upd, hkeep]
    have hbk' : ∀ x ∈ bucketReqs (isAllowed rl reg bks t url).2 (rl.getGroupFunc url),
        t0 ≤ x ∧ x < t0 + effWinMs rl reg (rl.getGroupFunc url) := by
      rw [hreqs']
      intro x hx
      rcases List.mem_append.mp hx with hx | hx
      · exact hbk x hx
      · simp only [List.mem_singleton] at hx
        rw [hx]; exact ht
    have hcap' : ((bucketReqs (isAllowed rl reg bks t url).2 (rl.getGroupFunc url)).length
        + tl.length : Int) ≤ effMax rl reg (rl.getGroupFunc url) := by
      rw [hreqs']
      simp only [List.length_append, List.length_cons, List.length_nil] at hcap ⊢
      push_cast at hcap ⊢
      omega
    obtain ⟨h1, h2⟩ := ih (isAllowed rl reg bks t url).2 hbk'
      (fun x hx => hts x (List.mem_cons_of_mem t hx)) hcap'
    refine ⟨?_, ?_⟩
    · simp only [runIsAllowed]
      rw [hallow, h1, List.length_cons, List.replicate_succ]
    · simp only [runIsAllowed]
      rw [h2, hreqs', List.append_assoc]
      rfl

/-- Under a fixed registry with a non-negative effective `maxRequests`,
a run from the empty store keeps every bucket at or below capacity. -/
theorem run_bound (rl : RateLimiterM) (reg : Reg) (url : String)
    (ts : List Int) :
    ∀ bks : BMap,
      (((bucketReqs bks (rl.getGroupFunc url)).length : Int)
          ≤ effMax rl reg (rl.getGroupFunc url)) →
      (((bucketReqs (runIsAllowed rl reg bks ts url).2 (rl.getGroupFunc url)).length : Int)
          ≤ effMax rl reg (rl.getGroupFunc url)) := by
  induction ts with
  | nil => intro bks h; simpa [runIsAllowed] using h
  | cons t tl ih =>
    intro bks h
    simp only [runIsAllowed]
    apply ih
    cases hall : (isAllowed rl reg bks t url).1 with
    | false =>
      rw [isAllowed_snd_denied rl reg bks t url hall, bucketReqs_upd]
      have := survive_length_le t (effWinMs rl reg (rl.getGroupFunc url))
        (bucketReqs bks (rl.getGroupFunc url))
      simp only
      omega
    | true =>
      have hlt := (isAllowed_fst_false_iff rl reg bks t url).not.mp (by rw [hall]; simp)
      rw [isAllowed_snd_allowed rl reg bks t url hall, bucketReqs_upd]
      dsimp only
      simp only [List.length_append, List.length_singleton]
      push_cast
      omega

/-! ### Lemmas: header negotiation -/

/-- The `maxRequests` patch field `updateFromHeaders` applies
(lines 319-325): the parsed limit when the negotiated limit string is
truthy and parses, otherwise nothing. -/
def limVal (h : HeadersRL) : Option Int :=
  if jsTruthyS (negLimit h) then jsParseInt ((negLimit h).getD "") else none

/-- The `windowSeconds` patch field `updateFromHeaders` applies
(lines 327-342): the parsed window when the negotiated window string is
truthy and parses; otherwise, when a reset string is truthy and parses,
`max 1 (reset − floor(now/1000))`; otherwise nothing. -/
def winVal (h : HeadersRL) (now : Int) : Option Int :=
  if jsTruthyS (negWindow h) then jsParseInt ((negWindow h).getD "")
  else if jsTruthyS (negReset h) then
    (jsParseInt ((negReset h).getD "")).map (fun r => max 1 (r - now.fdiv 1000))
  else none

/-- `updateFromHeaders` characterised: a no-op when neither patch field
was extracted, otherwise a whole-object store of the current override
updated at exactly the extracted fields. -/
theorem updateFromHeaders_char (reg : Reg) (group : String) (h : HeadersRL)
    (now : Int) :
    updateFromHeaders reg group h now =
      if limVal h = none ∧ winVal h now = none then reg
      else setGroupOptions reg group
        { maxRequests :=
            match limVal h with
            | some m => some m
            | none => (curOverride reg group).maxRequests,
          windowSeconds :=
            match winVal h now with
            | some w => some w
            | none => (curOverride reg group).windowSeconds } := by
  simp only [updateFromHeaders, limVal, winVal]
  by_cases hL : jsTruthyS (negLimit h) <;>
    by_cases hW : jsTruthyS (negWindow h) <;>
      by_cases hR : jsTruthyS (negReset h) <;>
        rcases hpL : jsParseInt ((negLimit h).getD "") with _ | m <;>
          rcases hpW : jsParseInt ((negWindow h).getD "") with _ | w <;>
            rcases hpR : jsParseInt ((negReset h).getD "") with _ | r <;>
              simp [hL, hW, hR, hpL, hpW, hpR]

theorem isWhitespace_false_of_isDigit {c : Char} (h : c.isDigit = true) :
    c.isWhitespace = false := by
  simp only [Char.isDigit, ge_iff_le, Bool.and_eq_true, decide_eq_true_eq] at h
  simp only [Char.isWhitespace, Bool.or_eq_false_iff, decide_eq_false_iff_not]
  refine ⟨⟨⟨?_, ?_⟩, ?_⟩, ?_⟩ <;> rintro rfl <;> simp_all

theorem ne_of_isDigit {c d : Char} (h : c.isDigit = true)
    (hd : d.isDigit = false) : c ≠ d := by
  rintro rfl
  rw [h] at hd
  exact Bool.noConfusion hd

theorem takeWhile_all {p : Char → Bool} {l : List Char}
    (h : ∀ c ∈ l, p c = true) : l.takeWhile p = l := by
  rw [← List.append_nil l, takeWhile_append_all h, List.takeWhile_nil, List.append_nil]

theorem natToString_data (n : Nat) : (natToString n).data = natDec n := rfl

theorem natToString_isEmpty (n : Nat) : (natToString n).isEmpty = false := by
  obtain ⟨c, cs, hcc⟩ := List.exists_cons_of_ne_nil (natDec_ne_nil n)
  exact isEmpty_false_of_data (by rw [natToString_data, hcc])

/-- `parseInt` inverts decimal printing of a natural number. -/
theorem jsParseInt_natToString (n : Nat) : jsParseInt (natToString n) = some (n : Int) := by
  obtain ⟨c, cs, hcc⟩ := List.exists_cons_of_ne_nil (natDec_ne_nil n)
  have hcd : c.isDigit = true := natDec_all_digits n c (by rw [hcc]; exact List.mem_cons_self c cs)
  have hdrop : (natToString n).data.dropWhile Char.isWhitespace = natDec n := by
    rw [natToString_data, hcc, List.dropWhile_cons, isWhitespace_false_of_isDigit hcd]
    simp
  have hdigs : jsParseDigits (natDec n) = some n := by
    unfold jsParseDigits
    rw [takeWhile_all (natDec_all_digits n)]
    rw [if_neg (by simp [natDec_ne_nil n])]
    rw [digitsVal_natDec]
  simp only [jsParseInt]
  rw [hdrop]
  rw [if_neg (by
      rw [hcc]
      simp only [List.head?_cons, Option.some.injEq]
      exact ne_of_isDigit hcd (by decide)),
    if_neg (by
      rw [hcc]
      simp only [List.head?_cons, Option.some.injEq]
      exact ne_of_isDigit hcd (by decide))]
  rw [hdigs]
  rfl

theorem stdLimit_of {h : HeadersRL} {sp : String} {P : ParsedRateLimit} {L : Nat}
    (hp : h.ratelimitPolicy = some sp) (hsp : sp.isEmpty = false)
    (hparse : parseRateLimitPolicyHeader sp = some P)
    (hl : P.limit = some L) (hL0 : L ≠ 0) :
    stdLimit h = some (natToString L) := by
  unfold stdLimit
  rw [hp]
  simp only [hsp, Bool.false_eq_true, if_false, hparse, hl]
  rw [if_pos hL0]

theorem stdWindow_of {h : HeadersRL} {sp : String} {P : ParsedRateLimit} {W : Nat}
    (hp : h.ratelimitPolicy = some sp) (hsp : sp.isEmpty = false)
    (hparse : parseRateLimitPolicyHeader sp = some P)
    (hw : P.windowSeconds = some W) (hW0 : W ≠ 0) :
    stdWindow h = some (natToString W) := by
  unfold stdWindow
  rw [hp]
  simp only [hsp, Bool.false_eq_true, if_false, hparse, hw]
  rw [if_pos hW0]

theorem stdReset_of {h : HeadersRL} {sr : String} {Pr : ParsedRateLimit} {R : Nat}
    (hr : h.ratelimit = some sr) (hsr : sr.isEmpty = false)
    (hparse : parseRateLimitHeader sr = some Pr)
    (hres : Pr.resetSeconds = some R) (hR0 : R ≠ 0) :
    stdReset h = some (natToString R) := by
  unfold stdReset
  rw [hr]
  simp only [hsr, Bool.false_eq_true, if_false, hparse, hres]
  rw [if_pos hR0]

theorem negLimit_std {h : HeadersRL} {sp : String} {P : ParsedRateLimit} {L : Nat}
    (hp : h.ratelimitPolicy = some sp) (hsp : sp.isEmpty = false)
    (hparse : parseRateLimitPolicyHeader sp = some P)
    (hl : P.limit = some L) (hL0 : L ≠ 0) :
    negLimit h = some (natToString L) := by
  simp only [negLimit, stdLimit_of hp hsp hparse hl hL0, jsOrS, jsTruthyS,
    natToString_isEmpty, Bool.not_false, if_true]

theorem negWindow_std {h : HeadersRL} {sp : String} {P : ParsedRateLimit} {W : Nat}
    (hp : h.ratelimitPolicy = some sp) (hsp : sp.isEmpty = false)
    (hparse : parseRateLimitPolicyHeader sp = some P)
    (hw : P.windowSeconds = some W) (hW0 : W ≠ 0) :
    negWindow h = some (natToString W) := by
  simp only [negWindow, stdWindow_of hp hsp hparse hw hW0, jsOrS, jsTruthyS,
    natToString_isEmpty, Bool.not_false, if_true]

theorem negReset_std {h : HeadersRL} {sr : String} {Pr : ParsedRateLimit} {R : Nat}
    (hr : h.ratelimit = some sr) (hsr : sr.isEmpty = false)
    (hparse : parseRateLimitHeader sr = some Pr)
    (hres : Pr.resetSeconds = some R) (hR0 : R ≠ 0) :
    negReset h = some (natToString R) := by
  simp only [negReset, stdReset_of hr hsr hparse hres hR0, jsOrS, jsTruthyS,
    natToString_isEmpty, Bool.not_false, if_true]

/-- JavaScript falsiness of the standards-track limit field: the policy
header is absent or empty, or its parsed `q` field is missing or zero
(`updateFromHeaders` line 284 treats all of these alike). -/
def stdLimitFalsy (h : HeadersRL) : Prop :=
  h.ratelimitPolicy = none
  ∨ ∃ sp, h.ratelimitPolicy = some sp
      ∧ (sp.isEmpty = true
         ∨ ∃ P, parseRateLimitPolicyHeader sp = some P
             ∧ (P.limit = none ∨ P.limit = some 0))

/-- JavaScript falsiness of the standards-track window field
(`updateFromHeaders` line 287). -/
def stdWindowFalsy (h : HeadersRL) : Prop :=
  h.ratelimitPolicy = none
  ∨ ∃ sp, h.ratelimitPolicy = some sp
      ∧ (sp.isEmpty = true
         ∨ ∃ P, parseRateLimitPolicyHeader sp = some P
             ∧ (P.windowSeconds = none ∨ P.windowSeconds = some 0))

theorem parsePolicy_isEmpty_false {sp : String} {P : ParsedRateLimit}
    (hparse : parseRateLimitPolicyHeader sp = some P) : sp.isEmpty = false := by
  cases hse : sp.isEmpty with
  | false => rfl
  | true =>
    rw [parseRateLimitPolicyHeader, if_pos hse] at hparse
    exact Option.noConfusion hparse

theorem stdLimit_none {h : HeadersRL} (hc : stdLimitFalsy h) : stdLimit h = none := by
  unfold stdLimit
  rcases hc with hp | ⟨sp, hp, hsp | ⟨P, hparse, hl⟩⟩
  · rw [hp]
  · rw [hp]
    simp [hsp]
  · rw [hp]
    simp only [parsePolicy_isEmpty_false hparse, Bool.false_eq_true, if_false, hparse]
    rcases hl with hl | hl <;> rw [hl] <;> simp

theorem stdWindow_none {h : HeadersRL} (hc : stdWindowFalsy h) : stdWindow h = none := by
  unfold stdWindow
  rcases hc with hp | ⟨sp, hp, hsp | ⟨P, hparse, hw⟩⟩
  · rw [hp]
  · rw [hp]
    simp [hsp]
  · rw [hp]
    simp only [parsePolicy_isEmpty_false hparse, Bool.false_eq_true, if_false, hparse]
    rcases hw with hw | hw <;> rw [hw] <;> simp

theorem negLimit_of_falsy {h : HeadersRL} (hc : stdLimitFalsy h) :
    negLimit h = jsOrS h.xRatelimitLimit h.xRateLimitLimit := by
  rw [negLimit, stdLimit_none hc]
  rfl

theorem negWindow_of_falsy {h : HeadersRL} (hc : stdWindowFalsy h) :
    negWindow h = jsOrS h.xRatelimitWindow h.xRateLimitWindow := by
  rw [negWindow, stdWindow_none hc]
  rfl

theorem limVal_of_std {h : HeadersRL} {L : Nat}
    (hn : negLimit h = some (natToString L)) : limVal h = some (L : Int) := by
  simp [limVal, hn, jsTruthyS, natToString_isEmpty, jsParseInt_natToString]

theorem limVal_of_string {h : HeadersRL} {s : String} {m : Int}
    (hn : negLimit h = some s) (hse : s.isEmpty = false)
    (hm : jsParseInt s = some m) : limVal h = some m := by
  simp [limVal, hn, jsTruthyS, hse, hm]

theorem winVal_of_std {h : HeadersRL} {W : Nat} (now : Int)
    (hn : negWindow h = some (natToString W)) : winVal h now = some (W : Int) := by
  simp [winVal, hn, jsTruthyS, natToString_isEmpty, jsParseInt_natToString]

theorem winVal_of_string {h : HeadersRL} {s : String} {w : Int} (now : Int)
    (hn : negWindow h = some s) (hse : s.isEmpty = false)
    (hw : jsParseInt s = some w) : winVal h now = some w := by
  simp [winVal, hn, jsTruthyS, hse, hw]

theorem winVal_of_reset {h : HeadersRL} {s : String} {r : Int} (now : Int)
    (hwf : jsTruthyS (negWindow h) = false) (hn : negReset h = some s)
    (hse : s.isEmpty = false) (hr : jsParseInt s = some r) :
    winVal h now = some (max 1 (r - now.fdiv 1000)) := by
  unfold winVal
  rw [hwf]
  simp [hn, jsTruthyS, hse, hr]

/-! ### Claim theorems -/

/-- Claim C2 (code bug exhibit): with a per-group override setting only
`maxRequests := 5` and a global policy `{maxRequests := 1, windowSeconds := 60}`,
the admission decision uses `windowSeconds = 0` (the `?? 0` fallback of
`isAllowed` line 101) instead of the global `60` that the code's own
comment ("otherwise fall back to global options") and the spec prescribe:
six immediate calls are all allowed, where a window of 60 s would deny
the sixth.  `resolveEffectivePolicySpec` shows the spec-prescribed
effective policy `(5, 60)`. -/
theorem C2_partial_override_uses_zero :
    (runIsAllowed ⟨1, 60, fun _ => "global"⟩
        (fun g => if g = "global" then some { maxRequests := some 5 } else none)
        (fun _ => none) [0, 1, 2, 3, 4, 5] "u").1
      = [true, true, true, true, true, true]
    ∧ effWinMs ⟨1, 60, fun _ => "global"⟩
        (fun g => if g = "global" then some { maxRequests := some 5 } else none) "global" = 0
    ∧ resolveEffectivePolicySpec ⟨1, 60, fun _ => "global"⟩
        (fun g => if g = "global" then some { maxRequests := some 5 } else none) "global"
      = (5, 60) := by
  decide

/-- Claim C7 (counterexample): `setGroupOptions` stores the given object
wholesale (`RateLimiter.ts` line 233), so upserting a patch that sets only
`maxRequests` over an override `{windowSeconds := 10}` erases the stored
`windowSeconds`, contradicting "never clobbers an existing field with an
undefined or absent value". -/
theorem C7_counterexample :
    (setGroupOptions (fun g => if g = "g" then some { windowSeconds := some 10 } else none)
        "g" { maxRequests := some 7 }) "g"
      = some { maxRequests := some 7, windowSeconds := none } := by
  decide

/-- Claim C7 (amended): header negotiation (`updateFromHeaders`) is a
field-level merge: when at least one field was extracted, the stored
override keeps every previously stored field that the patch did not parse
and overwrites exactly the parsed ones, creating the override when
absent; `setGroupOptions` itself replaces the stored object wholesale. -/
theorem C7_negotiation_merges (reg : Reg) (group : String) (h : HeadersRL)
    (now : Int) (hsome : limVal h ≠ none ∨ winVal h now ≠ none) :
    (updateFromHeaders reg group h now) group
      = some
        { maxRequests :=
            match limVal h with
            | some m => some m
            | none => (curOverride reg group).maxRequests,
          windowSeconds :=
            match winVal h now with
            | some w => some w
            | none => (curOverride reg group).windowSeconds } := by
  rw [updateFromHeaders_char, if_neg (by tauto)]
  exact upd_self _ _ _

/-- Claim C7 (witness): an existing override `{windowSeconds := 10}`
merged with a legacy limit-only patch keeps the stored window. -/
theorem C7_witness :
    (updateFromHeaders (fun g => if g = "g" then some { windowSeconds := some 10 } else none)
        "g" { xRatelimitLimit := some "50" } 0) "g"
      = some { maxRequests := some 50, windowSeconds := some 10 } :=
  (C7_negotiation_merges
      (fun g => if g = "g" then some { windowSeconds := some 10 } else none)
      "g" { xRatelimitLimit := some "50" } 0 (by decide)).trans (by decide)

/-- Claim C8: when neither a `maxRequests` nor a `windowSeconds` patch
field can be extracted from the headers, `updateFromHeaders` leaves the
whole override registry unchanged; and the header parsers are total,
returning a (possibly all-empty) field record for every non-empty input
rather than failing. -/
theorem C8_empty_patch_no_op (reg : Reg) (group : String) (h : HeadersRL)
    (now : Int) (hlim : limVal h = none) (hwin : winVal h now = none) :
    updateFromHeaders reg group h now = reg
    ∧ (∀ s : String, s.isEmpty = false →
        parseRateLimitHeader s ≠ none ∧ parseRateLimitPolicyHeader s ≠ none) := by
  constructor
  · rw [updateFromHeaders_char, if_pos ⟨hlim, hwin⟩]
  · intro s hs
    constructor
    · simp [parseRateLimitHeader, hs]
    · simp [parseRateLimitPolicyHeader, hs]

/-- Claim C8 (witness): headers whose values parse to nothing leave a
non-trivial registry untouched. -/
theorem C8_witness :
    updateFromHeaders (fun g => if g = "a" then some { maxRequests := some 3 } else none)
        "a" { ratelimitPolicy := some "\"p\";junk", ratelimit := some "\"p\";bad",
              xRatelimitLimit := some "abc", xRatelimitReset := some "never" } 5
      = (fun g => if g = "a" then some { maxRequests := some 3 } else none)
    ∧ (∀ s : String, s.isEmpty = false →
        parseRateLimitHeader s ≠ none ∧ parseRateLimitPolicyHeader s ≠ none) :=
  C8_empty_patch_no_op
    (fun g => if g = "a" then some { maxRequests := some 3 } else none)
    "a" { ratelimitPolicy := some "\"p\";junk", ratelimit := some "\"p\";bad",
          xRatelimitLimit := some "abc", xRatelimitReset := some "never" } 5
    (by decide) (by decide)

/-- Claim C9 (counterexample): shrink the effective `maxRequests` from 2
to 1 by configuration after two allowed calls; the next `isAllowed` call's
cleanup keeps both timestamps (still inside the window), so the surviving
count 2 exceeds the effective `maxRequests` 1. -/
theorem C9_counterexample :
    (isAllowed ⟨2, 100, fun _ => "global"⟩
        (fun g => if g = "global" then some { maxRequests := some 1, windowSeconds := some 100 } else none)
        (runIsAllowed ⟨2, 100, fun _ => "global"⟩ (fun _ => none) (fun _ => none) [0, 0] "u").2
        1 "u").2 "global"
      = some { requests := [0, 0], resetTime := 100000 }
    ∧ effMax ⟨2, 100, fun _ => "global"⟩
        (fun g => if g = "global" then some { maxRequests := some 1, windowSeconds := some 100 } else none)
        "global" = 1
    ∧ ¬((2 : Int) ≤ (1 : Int)) := by
  decide

/-- Claim C9 (amended): under a registry that stays fixed for the whole
run (so the effective policy never changes) with a non-negative effective
`maxRequests`, every `isAllowed` call in a run from the empty store
leaves the bucket's surviving timestamp count at most the effective
`maxRequests`; a shrinking policy change between calls can violate the
bound until old timestamps expire. -/
theorem C9_cleanup_bound (rl : RateLimiterM) (reg : Reg) (url : String)
    (ts : List Int) (hM : 0 ≤ effMax rl reg (rl.getGroupFunc url)) :
    ((bucketReqs (runIsAllowed rl reg (fun _ => none) ts url).2
        (rl.getGroupFunc url)).length : Int)
      ≤ effMax rl reg (rl.getGroupFunc url) :=
  run_bound rl reg url ts (fun _ => none) (by simpa [bucketReqs] using hM)

/-- Claim C9 (witness): three calls against capacity 2 leave at most 2
timestamps. -/
theorem C9_witness :
    ((bucketReqs (runIsAllowed ⟨2, 1, fun _ => "global"⟩ (fun _ => none)
        (fun _ => none) [0, 0, 0] "u").2 "global").length : Int)
      ≤ effMax ⟨2, 1, fun _ => "global"⟩ (fun _ => none) "global" :=
  C9_cleanup_bound ⟨2, 1, fun _ => "global"⟩ (fun _ => none) "u" [0, 0, 0] (by decide)

/-- Claim C10: `groupByDomain` is total and never throws: it returns the
URL's hostname when the host runtime's URL parser succeeds and the input
string itself when parsing fails, so every request maps to a group. -/
theorem C10_groupByDomain_total (parseHostname : String → Option String)
    (url : String) :
    (∀ hn, parseHostname url = some hn → groupByDomain parseHostname url = hn)
    ∧ (parseHostname url = none → groupByDomain parseHostname url = url) := by
  constructor
  · intro hn hh
    simp [groupByDomain, hh]
  · intro hh
    simp [groupByDomain, hh]

/-- Claim C10 (witness): a parsing and a non-parsing input. -/
theorem C10_witness :
    groupByDomain (fun s => if s = "http://x.com/a" then some "x.com" else none)
        "http://x.com/a" = "x.com"
    ∧ groupByDomain (fun s => if s = "http://x.com/a" then some "x.com" else none)
        "not a url" = "not a url" :=
  ⟨(C10_groupByDomain_total (fun s => if s = "http://x.com/a" then some "x.com" else none)
      "http://x.com/a").1 "x.com" (by decide),
   (C10_groupByDomain_total (fun s => if s = "http://x.com/a" then some "x.com" else none)
      "not a url").2 (by decide)⟩

/-- Claim C3 (counterexample): with the standards-track policy header
present and carrying `q=0`, `updateFromHeaders` consults the legacy
`x-ratelimit-limit` (line 284 treats the parsed `0` as falsy): the stored
`maxRequests` becomes 50 from the legacy header, not the standards-track
value 0. -/
theorem C3_counterexample :
    parseRateLimitPolicyHeader "\"p\";q=0;w=60"
      = some { policy := some "p", limit := some 0, windowSeconds := some 60 }
    ∧ (updateFromHeaders (fun _ => none) "g"
        { ratelimitPolicy := some "\"p\";q=0;w=60", xRatelimitLimit := some "50" } 0) "g"
      = some { maxRequests := some 50, windowSeconds := some 60 } := by
  decide

/-- Claim C3 (amended), per field and universally over header sets,
registries and groups.
(1) A standards-track limit that parses to a non-zero number decides
`maxRequests`, whatever the legacy headers and the window field hold.
(2) A standards-track window that parses to a non-zero number decides
`windowSeconds` likewise.
(3) When the standards-track limit field is falsy — header absent or
empty, field unparsable, or zero — the legacy `x-ratelimit-limit` /
`x-rate-limit-limit` chain decides `maxRequests`.
(4) The same per-field fallback for the window field and the legacy
window chain.
(5) When no window value is available from either family but a reset
value is (standards-track or legacy), `windowSeconds` becomes
`max 1 (resetEpochSeconds − floor(nowMillis/1000))`. -/
theorem C3_standards_precedence :
    (∀ (reg : Reg) (group : String) (h : HeadersRL) (now : Int) (sp : String)
        (P : ParsedRateLimit) (L : Nat),
      h.ratelimitPolicy = some sp → sp.isEmpty = false →
      parseRateLimitPolicyHeader sp = some P → P.limit = some L → L ≠ 0 →
      ∃ o, (updateFromHeaders reg group h now) group = some o
        ∧ o.maxRequests = some (L : Int))
    ∧ (∀ (reg : Reg) (group : String) (h : HeadersRL) (now : Int) (sp : String)
        (P : ParsedRateLimit) (W : Nat),
      h.ratelimitPolicy = some sp → sp.isEmpty = false →
      parseRateLimitPolicyHeader sp = some P → P.windowSeconds = some W → W ≠ 0 →
      ∃ o, (updateFromHeaders reg group h now) group = some o
        ∧ o.windowSeconds = some (W : Int))
    ∧ (∀ (reg : Reg) (group : String) (h : HeadersRL) (now : Int) (s : String)
        (m : Int),
      stdLimitFalsy h →
      jsOrS h.xRatelimitLimit h.xRateLimitLimit = some s → s.isEmpty = false →
      jsParseInt s = some m →
      ∃ o, (updateFromHeaders reg group h now) group = some o
        ∧ o.maxRequests = some m)
    ∧ (∀ (reg : Reg) (group : String) (h : HeadersRL) (now : Int) (s : String)
        (w : Int),
      stdWindowFalsy h →
      jsOrS h.xRatelimitWindow h.xRateLimitWindow = some s → s.isEmpty = false →
      jsParseInt s = some w →
      ∃ o, (updateFromHeaders reg group h now) group = some o
        ∧ o.windowSeconds = some w)
    ∧ (∀ (reg : Reg) (group : String) (h : HeadersRL) (now : Int) (s : String)
        (r : Int),
      stdWindowFalsy h →
      jsTruthyS (jsOrS h.xRatelimitWindow h.xRateLimitWindow) = false →
      negReset h = some s → s.isEmpty = false → jsParseInt s = some r →
      ∃ o, (updateFromHeaders reg group h now) group = some o
        ∧ o.windowSeconds = some (max 1 (r - now.fdiv 1000))) := by
  refine ⟨?_, ?_, ?_, ?_, ?_⟩
  · intro reg group h now sp P L hp hsp hparse hl hL0
    have hlv := limVal_of_std (negLimit_std hp hsp hparse hl hL0)
    rw [updateFromHeaders_char, if_neg (by simp [hlv])]
    exact ⟨_, upd_self _ _ _, by simp [hlv]⟩
  · intro reg group h now sp P W hp hsp hparse hw hW0
    have hwv := winVal_of_std now (negWindow_std hp hsp hparse hw hW0)
    rw [updateFromHeaders_char, if_neg (by simp [hwv])]
    exact ⟨_, upd_self _ _ _, by simp [hwv]⟩
  · intro reg group h now s m hfal hleg hse hm
    have hnl : negLimit h = some s := by rw [negLimit_of_falsy hfal, hleg]
    have hlv := limVal_of_string hnl hse hm
    rw [updateFromHeaders_char, if_neg (by simp [hlv])]
    exact ⟨_, upd_self _ _ _, by simp [hlv]⟩
  · intro reg group h now s w hfal hleg hse hw
    have hnw : negWindow h = some s := by rw [negWindow_of_falsy hfal, hleg]
    have hwv := winVal_of_string now hnw hse hw
    rw [updateFromHeaders_char, if_neg (by simp [hwv])]
    exact ⟨_, upd_self _ _ _, by simp [hwv]⟩
  · intro reg group h now s r hfal hlegf hres hse hr
    have hwf : jsTruthyS (negWindow h) = false := by
      rw [negWindow_of_falsy hfal]
      exact hlegf
    have hwv := winVal_of_reset now hwf hres hse hr
    rw [updateFromHeaders_char, if_neg (by simp [hwv])]
    exact ⟨_, upd_self _ _ _, by simp [hwv]⟩

/-- Claim C3 (witness): with `ratelimit-policy: "p";q=100` (limit only),
legacy `x-ratelimit-limit: 50` and `x-ratelimit-window: 120`, the stored
limit is the standards-track 100 and the stored window the legacy 120;
and with a q-only policy header, no window headers, and
`ratelimit: "p";t=30` at `now = 5000` ms, the stored window is
`max 1 (30 − 5)`. -/
theorem C3_witness :
    (∃ o, (updateFromHeaders (fun _ => none) "g"
        { ratelimitPolicy := some "\"p\";q=100", xRatelimitLimit := some "50",
          xRatelimitWindow := some "120" } 0) "g"
      = some o ∧ o.maxRequests = some (100 : Int))
    ∧ (∃ o, (updateFromHeaders (fun _ => none) "g"
        { ratelimitPolicy := some "\"p\";q=100", xRatelimitLimit := some "50",
          xRatelimitWindow := some "120" } 0) "g"
      = some o ∧ o.windowSeconds = some (120 : Int))
    ∧ (∃ o, (updateFromHeaders (fun _ => none) "g"
        { ratelimitPolicy := some "\"p\";q=100", ratelimit := some "\"p\";t=30" } 5000) "g"
      = some o ∧ o.windowSeconds = some (max 1 ((30 : Int) - (5000 : Int).fdiv 1000))) :=
  ⟨C3_standards_precedence.1 (fun _ => none) "g"
      { ratelimitPolicy := some "\"p\";q=100", xRatelimitLimit := some "50",
        xRatelimitWindow := some "120" } 0
      "\"p\";q=100" { policy := some "p", limit := some 100 } 100
      rfl (by decide) (by decide) rfl (by decide),
   C3_standards_precedence.2.2.2.1 (fun _ => none) "g"
      { ratelimitPolicy := some "\"p\";q=100", xRatelimitLimit := some "50",
        xRatelimitWindow := some "120" } 0 "120" 120
      (Or.inr ⟨"\"p\";q=100", rfl,
        Or.inr ⟨{ policy := some "p", limit := some 100 }, by decide, Or.inl rfl⟩⟩)
      (by decide) (by decide) (by decide),
   C3_standards_precedence.2.2.2.2 (fun _ => none) "g"
      { ratelimitPolicy := some "\"p\";q=100", ratelimit := some "\"p\";t=30" } 5000
      "30" 30
      (Or.inr ⟨"\"p\";q=100", rfl,
        Or.inr ⟨{ policy := some "p", limit := some 100 }, by decide, Or.inl rfl⟩⟩)
      (by decide) (by decide) (by decide) (by decide)⟩

/-- Claim C4 (counterexample): a policy name containing a double quote is
not recovered by the round trip: building with policy `a"b` and parsing
back yields policy `a` (the regular expression stops at the embedded
quote). -/
theorem C4_counterexample :
    (parseRateLimitHeader (buildRateLimitHeader
        { policy := "a\"b", remaining := 5, resetSeconds := 3 })).map ParsedRateLimit.policy
      = some (some "a")
    ∧ ("a" : String) ≠ "a\"b" := by
  decide

/-- Claim C4 (amended): for every input whose policy name is non-empty
and contains neither a double quote nor a decimal digit, with
non-negative integer `remaining`/`limit` and positive
`resetSeconds`/`windowSeconds`, parsing the built header recovers the
fields: `parseRateLimitHeader ∘ buildRateLimitHeader` recovers
`policy`, `remaining`, `resetSeconds`, and
`parseRateLimitPolicyHeader ∘ buildRateLimitPolicyHeader` recovers
`policy`, `limit`, `windowSeconds`. -/
theorem C4_round_trip (policy : String) (r t q w : Nat)
    (hne : policy.data ≠ [])
    (hP : ∀ c ∈ policy.data, c.isDigit = false ∧ c ≠ '"')
    (ht : 0 < t) (hw : 0 < w) :
    parseRateLimitHeader (buildRateLimitHeader
        { policy := policy, remaining := (r : Int), resetSeconds := (t : Int) })
      = some { policy := some policy, remaining := some r, resetSeconds := some t }
    ∧ parseRateLimitPolicyHeader (buildRateLimitPolicyHeader
        { policy := policy, limit := (q : Int), windowSeconds := some (w : Int) })
      = some { policy := some policy, limit := some q, windowSeconds := some w } := by
  cases policy with
  | mk P => exact ⟨parse_build_usage P r t hne hP ht, parse_build_policy P q w hne hP hw⟩

/-- Claim C4 (witness): round trip at policy `api`, remaining 5, reset 3,
limit 100, window 60. -/
theorem C4_witness :
    parseRateLimitHeader (buildRateLimitHeader
        { policy := "api", remaining := ((5 : Nat) : Int), resetSeconds := ((3 : Nat) : Int) })
      = some { policy := some "api", remaining := some 5, resetSeconds := some 3 }
    ∧ parseRateLimitPolicyHeader (buildRateLimitPolicyHeader
        { policy := "api", limit := ((100 : Nat) : Int), windowSeconds := some ((60 : Nat) : Int) })
      = some { policy := some "api", limit := some 100, windowSeconds := some 60 } :=
  C4_round_trip "api" 5 3 100 60 (by decide) (by decide) (by decide) (by decide)

theorem intToString_zero : intToString 0 = "0" := by decide

/-- Claim C5: in throw mode (`throwOnRateLimit` set to true or left to
its default) a denied request makes the middleware raise a
`RateLimitError` carrying the group's bucket reset time (milliseconds)
and `remainingRequests = 0`, with the custom-or-default message; the
outcome is `threw`, not `delegatedNext`, so the downstream stage never
runs. -/
theorem C5_throw_mode (cfg : MwConfig) (rl : RateLimiterM) (reg : Reg)
    (bks : BMap) (now : Int) (url : String) (isoDate : Int → String)
    (hthrow : cfg.throwOnRateLimit = none ∨ cfg.throwOnRateLimit = some true)
    (hdeny : (isAllowed rl reg bks now url).1 = false) :
    ∃ b, (isAllowed rl reg bks now url).2 (rl.getGroupFunc url) = some b
      ∧ (middleware cfg rl reg bks now url isoDate).1
          = MwOutcome.threw b.resetTime 0
              (cfg.errorMessage.getD (defaultDenyMessage isoDate b.resetTime))
      ∧ (middleware cfg rl reg bks now url isoDate).2
          = (isAllowed rl reg bks now url).2 := by
  obtain ⟨b, hb⟩ := isAllowed_bucket_exists rl reg bks now url
  have hrt : getResetTime rl (isAllowed rl reg bks now url).2 url = some b.resetTime := by
    simp [getResetTime, hb]
  have hrem := denied_remaining_zero rl reg bks now url hdeny
  have hflag : cfg.throwOnRateLimit.getD true = true := by
    rcases hthrow with h | h <;> rw [h] <;> rfl
  refine ⟨b, hb, ?_, ?_⟩ <;>
    simp only [middleware, hdeny, Bool.false_eq_true, if_false, hrt, hrem,
      Option.getD_some, hflag, if_true]

/-- Claim C6: in synthesize mode (`throwOnRateLimit = false`) a denied
request makes the middleware return, without delegating downstream, a
429 "Too Many Requests" `application/problem+json` response whose body
carries status 429, the title, and the custom-or-default detail, and
whose headers are the standards-track `RateLimit` / `RateLimit-Policy`
pair built with the group name as policy identifier, the legacy
`RateLimit-Limit` / `RateLimit-Remaining` / `RateLimit-Reset` values, and
`Retry-After` equal to the ceiling of the seconds until reset, with
`RateLimit-Remaining = "0"`. -/
theorem C6_synthesize_mode (cfg : MwConfig) (rl : RateLimiterM) (reg : Reg)
    (bks : BMap) (now : Int) (url : String) (isoDate : Int → String)
    (hflag : cfg.throwOnRateLimit = some false)
    (hdeny : (isAllowed rl reg bks now url).1 = false) :
    ∃ b, (isAllowed rl reg bks now url).2 (rl.getGroupFunc url) = some b
      ∧ (middleware cfg rl reg bks now url isoDate).1
          = MwOutcome.synthesized
              { status := 429
                statusText := "Too Many Requests"
                contentType := "application/problem+json"
                rateLimit := buildRateLimitHeader
                  { policy := rl.getGroupFunc url, remaining := 0,
                    resetSeconds := jsCeilDiv (b.resetTime - now) 1000 }
                rateLimitPolicy := buildRateLimitPolicyHeader
                  { policy := rl.getGroupFunc url,
                    limit := (getGroupOptions rl reg (rl.getGroupFunc url)).maxRequests.getD 0,
                    windowSeconds :=
                      some ((getGroupOptions rl reg (rl.getGroupFunc url)).windowSeconds.getD 0) }
                rateLimitLimit := intToString
                  ((getGroupOptions rl reg (rl.getGroupFunc url)).maxRequests.getD 0)
                rateLimitRemaining := "0"
                rateLimitReset := intToString (jsCeilDiv b.resetTime 1000)
                retryAfter := intToString (jsCeilDiv (b.resetTime - now) 1000)
                ok := false
                bodyNull := true
                problemStatus := 429
                problemTitle := "Too Many Requests"
                problemDetail :=
                  cfg.errorMessage.getD (defaultDenyMessage isoDate b.resetTime) } := by
  obtain ⟨b, hb⟩ := isAllowed_bucket_exists rl reg bks now url
  have hrt : getResetTime rl (isAllowed rl reg bks now url).2 url = some b.resetTime := by
    simp [getResetTime, hb]
  have hrem := denied_remaining_zero rl reg bks now url hdeny
  refine ⟨b, hb, ?_⟩
  simp only [middleware, hdeny, Bool.false_eq_true, if_false, hrt, hrem,
    Option.getD_some, hflag, intToString_zero]

/-- Claim C5 (witness): a denied call in default (throw) mode throws with
remaining 0 and the bucket's reset time. -/
theorem C5_witness :
    ∃ b, (isAllowed ⟨1, 60, fun _ => "global"⟩ (fun _ => none)
        (runIsAllowed ⟨1, 60, fun _ => "global"⟩ (fun _ => none) (fun _ => none) [0] "u").2
        1 "u").2 "global" = some b
      ∧ (middleware {} ⟨1, 60, fun _ => "global"⟩ (fun _ => none)
          (runIsAllowed ⟨1, 60, fun _ => "global"⟩ (fun _ => none) (fun _ => none) [0] "u").2
          1 "u" (fun _ => "ISO")).1
        = MwOutcome.threw b.resetTime 0
            ((MwConfig.errorMessage {}).getD (defaultDenyMessage (fun _ => "ISO") b.resetTime))
      ∧ (middleware {} ⟨1, 60, fun _ => "global"⟩ (fun _ => none)
          (runIsAllowed ⟨1, 60, fun _ => "global"⟩ (fun _ => none) (fun _ => none) [0] "u").2
          1 "u" (fun _ => "ISO")).2
        = (isAllowed ⟨1, 60, fun _ => "global"⟩ (fun _ => none)
            (runIsAllowed ⟨1, 60, fun _ => "global"⟩ (fun _ => none) (fun _ => none) [0] "u").2
            1 "u").2 :=
  C5_throw_mode {} ⟨1, 60, fun _ => "global"⟩ (fun _ => none)
    (runIsAllowed ⟨1, 60, fun _ => "global"⟩ (fun _ => none) (fun _ => none) [0] "u").2
    1 "u" (fun _ => "ISO") (Or.inl rfl) (by decide)

/-- Claim C6 (witness): a denied call in synthesize mode produces the 429
response with its headers. -/
theorem C6_witness :
    ∃ b, (isAllowed ⟨1, 60, fun _ => "global"⟩ (fun _ => none)
        (runIsAllowed ⟨1, 60, fun _ => "global"⟩ (fun _ => none) (fun _ => none) [0] "u").2
        1 "u").2 "global" = some b
      ∧ (middleware { throwOnRateLimit := some false } ⟨1, 60, fun _ => "global"⟩ (fun _ => none)
          (runIsAllowed ⟨1, 60, fun _ => "global"⟩ (fun _ => none) (fun _ => none) [0] "u").2
          1 "u" (fun _ => "ISO")).1
        = MwOutcome.synthesized
            { status := 429
              statusText := "Too Many Requests"
              contentType := "application/problem+json"
              rateLimit := buildRateLimitHeader
                { policy := "global", remaining := 0,
                  resetSeconds := jsCeilDiv (b.resetTime - 1) 1000 }
              rateLimitPolicy := buildRateLimitPolicyHeader
                { policy := "global",
                  limit := (getGroupOptions ⟨1, 60, fun _ => "global"⟩ (fun _ => none) "global").maxRequests.getD 0,
                  windowSeconds :=
                    some ((getGroupOptions ⟨1, 60, fun _ => "global"⟩ (fun _ => none) "global").windowSeconds.getD 0) }
              rateLimitLimit := intToString
                ((getGroupOptions ⟨1, 60, fun _ => "global"⟩ (fun _ => none) "global").maxRequests.getD 0)
              rateLimitRemaining := "0"
              rateLimitReset := intToString (jsCeilDiv b.resetTime 1000)
              retryAfter := intToString (jsCeilDiv (b.resetTime - 1) 1000)
              ok := false
              bodyNull := true
              problemStatus := 429
              problemTitle := "Too Many Requests"
              problemDetail :=
                (MwConfig.errorMessage { throwOnRateLimit := some false }).getD
                  (defaultDenyMessage (fun _ => "ISO") b.resetTime) } :=
  C6_synthesize_mode { throwOnRateLimit := some false } ⟨1, 60, fun _ => "global"⟩
    (fun _ => none)
    (runIsAllowed ⟨1, 60, fun _ => "global"⟩ (fun _ => none) (fun _ => none) [0] "u").2
    1 "u" (fun _ => "ISO") rfl (by decide)

/-- Claim C1: for a policy with `maxRequests = N ≥ 1` and
`windowSeconds = W > 0`, starting from an empty store, a fixed group, and
all calls within one window (`t0 ≤ t < t0 + W·1000`), the first N
`isAllowed` calls return true, the (N+1)-th returns false, and
`getRemainingRequests` queried at the last call's time is 0. -/
theorem C1_sliding_window (N : Nat) (W t0 : Int) (gf : String → String)
    (url : String) (ts : List Int) (tl : Int)
    (hN : 1 ≤ N) (hW : 0 < W) (hlen : ts.length = N)
    (hin : ∀ t ∈ ts ++ [tl], t0 ≤ t ∧ t < t0 + W * 1000) :
    (runIsAllowed ⟨(N : Int), W, gf⟩ (fun _ => none) (fun _ => none) (ts ++ [tl]) url).1
      = List.replicate N true ++ [false]
    ∧ getRemainingRequests ⟨(N : Int), W, gf⟩ (fun _ => none)
        (runIsAllowed ⟨(N : Int), W, gf⟩ (fun _ => none) (fun _ => none) (ts ++ [tl]) url).2
        tl url = 0 := by
  have hwin : effWinMs ⟨(N : Int), W, gf⟩ (fun _ => none) (gf url) = W * 1000 := rfl
  have hmax : effMax ⟨(N : Int), W, gf⟩ (fun _ => none) (gf url) = (N : Int) := rfl
  have hgf : (⟨(N : Int), W, gf⟩ : RateLimiterM).getGroupFunc = gf := rfl
  have hts : ∀ t ∈ ts, t0 ≤ t ∧ t < t0 + W * 1000 :=
    fun t ht => hin t (List.mem_append_left _ ht)
  have htl : t0 ≤ tl ∧ tl < t0 + W * 1000 :=
    hin tl (List.mem_append_right _ (List.mem_singleton_self tl))
  obtain ⟨h1, h2⟩ := run_allows ⟨(N : Int), W, gf⟩ (fun _ => none) url t0 ts
    (fun _ => none)
    (by intro x hx; simp [bucketReqs] at hx)
    (by rw [hwin]; exact hts)
    (by
      rw [hmax]
      simp [bucketReqs, hlen])
  rw [hgf] at h2
  have hreqs : bucketReqs
      (runIsAllowed ⟨(N : Int), W, gf⟩ (fun _ => none) (fun _ => none) ts url).2 (gf url)
      = ts := by
    rw [h2]
    simp [bucketReqs]
  have hkeep : survive tl (W * 1000) ts = ts :=
    survive_all (fun x hx => by
      have := hts x hx
      omega)
  have hdeny : (isAllowed ⟨(N : Int), W, gf⟩ (fun _ => none)
      (runIsAllowed ⟨(N : Int), W, gf⟩ (fun _ => none) (fun _ => none) ts url).2 tl url).1
      = false := by
    rw [isAllowed_fst_false_iff, hgf, hwin, hmax, hreqs, hkeep, hlen]
  have happ := runIsAllowed_append ⟨(N : Int), W, gf⟩ (fun _ => none) (fun _ => none)
    ts [tl] url
  have hsingle : runIsAllowed ⟨(N : Int), W, gf⟩ (fun _ => none)
      (runIsAllowed ⟨(N : Int), W, gf⟩ (fun _ => none) (fun _ => none) ts url).2 [tl] url
      = ([(isAllowed ⟨(N : Int), W, gf⟩ (fun _ => none)
            (runIsAllowed ⟨(N : Int), W, gf⟩ (fun _ => none) (fun _ => none) ts url).2 tl url).1],
         (isAllowed ⟨(N : Int), W, gf⟩ (fun _ => none)
            (runIsAllowed ⟨(N : Int), W, gf⟩ (fun _ => none) (fun _ => none) ts url).2 tl url).2) := by
    simp [runIsAllowed]
  constructor
  · rw [happ, hsingle, h1, hdeny, hlen]
  · rw [happ, hsingle]
    exact denied_remaining_zero _ _ _ _ _ hdeny

/-- Claim C1 (witness): `{maxRequests := 2, windowSeconds := 1}` with
three immediate calls yields `[true, true, false]` and remaining 0. -/
theorem C1_witness :
    (runIsAllowed ⟨((2 : Nat) : Int), 1, fun _ => "global"⟩ (fun _ => none) (fun _ => none)
        ([0, 0] ++ [0]) "http://example.com").1
      = List.replicate 2 true ++ [false]
    ∧ getRemainingRequests ⟨((2 : Nat) : Int), 1, fun _ => "global"⟩ (fun _ => none)
        (runIsAllowed ⟨((2 : Nat) : Int), 1, fun _ => "global"⟩ (fun _ => none) (fun _ => none)
          ([0, 0] ++ [0]) "http://example.com").2
        0 "http://example.com" = 0 :=
  C1_sliding_window 2 1 0 (fun _ => "global") "http://example.com" [0, 0] 0
    (by norm_num) (by norm_num) rfl (by decide)

end FetchClient
